import Mathlib

/-!
Verification of the s4cmb pointing / input-sky core.

This file gives a shallow embedding of the numerically meaningful parts of
`time_ordered_data/tod.py` and `time_ordered_data/input_sky.py`:

* `apply_pointing_model` — the empirical pointing-model correction applied to
  encoder azimuth/elevation streams (`pointing.apply_pointing_model`);
* `get_ut1utc` — the UT1-UTC ephemeris lookup (`pointing.get_ut1utc`);
* `Azel2Radec.azel2radecpa` — the horizon-to-celestial conversion wiring
  (`Azel2Radec.azel2radecpa`), parameterized over the external `pyslalib`
  astrometric primitives;
* `HealpixFitsMap` construction with leakage zeroing
  (`HealpixFitsMap.set_leakage_to_zero`).

Machine floats are modelled by real numbers, numpy arrays by lists, and
fallible operations by `Except`/`Option`.
-/

noncomputable section

open Real List

/-- `sec2deg = 360.0/86400.0` from tod.py. -/
def sec2deg : ℝ := 360.0 / 86400.0

/-- `d2r = np.pi / 180.0` from tod.py. -/
def d2r : ℝ := Real.pi / 180.0

/-- The parameter-dictionary lookup of `apply_pointing_model`:
`params` is initialized to `0.0` for every catalog name, and for a name
present in `allowed_params.split()` the value at the first index of that name
(`self.allowed_params.split().index(param)`) is taken from `value_params`.
The embedding takes the already-split token list; `List.getD i 0` returns
`value_params[i]` for `i` in range (which the caller's length assertion
guarantees). -/
def getParam (allowed_params : List String) (value_params : List ℝ)
    (p : String) : ℝ :=
  match List.indexOf? p allowed_params with
  | some i => value_params.getD i 0
  | none => 0

/-- The 25 keys of the `params` dictionary in `apply_pointing_model`
(tod.py lines 205-209). -/
def paramCatalog : List String :=
  ["an", "aw", "an2", "aw2", "an4", "aw4", "npae", "ca", "ia", "ie", "tf",
   "tfs", "ref", "dt", "elt", "ta1", "te1", "sa", "se", "sa2", "se2", "sta",
   "ste", "sta2", "ste2"]

/-- The ten catalog names that appear in the `params` dictionary but in no
correction formula of `apply_pointing_model`. -/
def ghostParams : List String :=
  ["ta1", "te1", "sa", "se", "sa2", "se2", "sta", "ste", "sta2", "ste2"]

/-- The azimuth offset `azd` (arcminutes) exactly as accumulated by the
statement chain of `apply_pointing_model` (tod.py lines 219-234), with
`dt` already multiplied by `sec2deg`. -/
def srcAzd (an aw an2 aw2 an4 aw4 npae ca ia dt lat az el : ℝ) : ℝ :=
  let azd := -an * Real.sin az * Real.sin el
  let azd := azd - aw * Real.cos az * Real.sin el
  let azd := azd - (-an2 * Real.sin (2 * az) * Real.sin el)
  let azd := azd - aw2 * Real.cos (2 * az) * Real.sin el
  let azd := azd - (-an4 * Real.sin (4 * az) * Real.sin el)
  let azd := azd - aw4 * Real.cos (4 * az) * Real.sin el
  let azd := azd + npae * Real.sin el
  let azd := azd - ca
  let azd := azd + ia * Real.cos el
  let azd := azd + dt * (-Real.sin lat + Real.cos az * Real.cos lat * Real.tan el)
  azd

/-- The elevation offset `eld` (arcminutes) exactly as accumulated by the
statement chain of `apply_pointing_model` (tod.py lines 237-251), with
`dt` already multiplied by `sec2deg` and `tmin = np.min(self.time)`. -/
def srcEld (an aw an2 aw2 an4 aw4 ie tf tfs rf dt elt lat az el t tmin : ℝ) : ℝ :=
  let eld := an * Real.cos az
  let eld := eld - aw * Real.sin az
  let eld := eld - an2 * Real.cos (2 * az)
  let eld := eld - aw2 * Real.sin (2 * az)
  let eld := eld - an4 * Real.cos (4 * az)
  let eld := eld - aw4 * Real.sin (4 * az)
  let eld := eld - ie
  let eld := eld + tf * Real.cos el
  let eld := eld + tfs * Real.sin el
  let eld := eld - rf / Real.tan el
  let eld := eld + -dt * Real.cos lat * Real.sin az
  let eld := eld + elt * (t - tmin)
  eld

/-- Elementwise application over three parallel arrays (numpy broadcasting of
equal-length 1d arrays). -/
def map3 {α β γ δ : Type} (f : α → β → γ → δ) :
    List α → List β → List γ → List δ
  | a :: as, b :: bs, c :: cs => f a b c :: map3 f as bs cs
  | _, _, _ => []

/-- `pointing.apply_pointing_model` (tod.py lines 185-262): assert the
name/value lists have equal length (`AssertionError` modelled as
`Except.error`), resolve every catalog parameter (absent names default to
`0.0`), convert `dt` from seconds to degrees, accumulate the azimuth and
elevation offsets in arcminutes, convert both to radians, divide the azimuth
offset by `cos(el_enc)` and subtract both offsets from the encoder values.
`lat` is in radians (`self.lat`). -/
def apply_pointing_model (az_enc el_enc time : List ℝ) (value_params : List ℝ)
    (allowed_params : List String) (lat : ℝ) :
    Except String (List ℝ × List ℝ) :=
  if value_params.length ≠ allowed_params.length then
    Except.error ("Vector containing parameters (value_params) has to have " ++
      "the same length than the vector containing names (allowed_params).")
  else
    let p := getParam allowed_params value_params
    let dtp := p "dt" * sec2deg
    let tmin := (time.min?).getD 0
    Except.ok
      (List.zipWith (fun az el =>
          az - srcAzd (p "an") (p "aw") (p "an2") (p "aw2") (p "an4") (p "aw4")
                (p "npae") (p "ca") (p "ia") dtp lat az el
              * (Real.pi / (180.0 * 60.0)) / Real.cos el)
        az_enc el_enc,
       map3 (fun az el t =>
          el - srcEld (p "an") (p "aw") (p "an2") (p "aw2") (p "an4") (p "aw4")
                (p "ie") (p "tf") (p "tfs") (p "ref") dtp (p "elt") lat az el t
                tmin
              * (Real.pi / (180.0 * 60.0)))
        az_enc el_enc time)

/-- Spec-side azimuth-offset formula, transcribed from the specification text
(spec.md §4.1, azimuth correction block). -/
def azdSpec (an aw an2 aw2 an4 aw4 npae ca ia dt lat az el : ℝ) : ℝ :=
  -an * Real.sin az * Real.sin el - aw * Real.cos az * Real.sin el
    + an2 * Real.sin (2 * az) * Real.sin el
    - aw2 * Real.cos (2 * az) * Real.sin el
    + an4 * Real.sin (4 * az) * Real.sin el
    - aw4 * Real.cos (4 * az) * Real.sin el
    + npae * Real.sin el - ca + ia * Real.cos el
    + dt * (-Real.sin lat + Real.cos az * Real.cos lat * Real.tan el)

/-- Spec-side elevation-offset formula, transcribed from the specification
text (spec.md §4.1, elevation correction block). -/
def eldSpec (an aw an2 aw2 an4 aw4 ie tf tfs rf dt elt lat az el t tmin : ℝ) : ℝ :=
  an * Real.cos az - aw * Real.sin az - an2 * Real.cos (2 * az)
    - aw2 * Real.sin (2 * az) - an4 * Real.cos (4 * az)
    - aw4 * Real.sin (4 * az) - ie
    + tf * Real.cos el + tfs * Real.sin el - rf / Real.tan el
    - dt * Real.cos lat * Real.sin az + elt * (t - tmin)

/-- Spec-side corrected azimuth: the arcminute offset `azdSpec` converted to
radians, divided by `cos(el_enc)`, and subtracted from the encoder azimuth. -/
def azCorrectedSpec (an aw an2 aw2 an4 aw4 npae ca ia dt lat : ℝ)
    (az_enc el_enc : List ℝ) : List ℝ :=
  List.zipWith (fun az el =>
      az - azdSpec an aw an2 aw2 an4 aw4 npae ca ia dt lat az el
          * (Real.pi / (180 * 60)) / Real.cos el)
    az_enc el_enc

/-- Spec-side corrected elevation: the arcminute offset `eldSpec` converted to
radians and subtracted from the encoder elevation. -/
def elCorrectedSpec (an aw an2 aw2 an4 aw4 ie tf tfs rf dt elt lat : ℝ)
    (az_enc el_enc time : List ℝ) (tmin : ℝ) : List ℝ :=
  map3 (fun az el t =>
      el - eldSpec an aw an2 aw2 an4 aw4 ie tf tfs rf dt elt lat az el t tmin
          * (Real.pi / (180 * 60)))
    az_enc el_enc time

/-- `np.searchsorted(a, v)` with the default `side='left'` on a sorted array:
the left insertion point, i.e. the number of entries strictly below `v`. -/
def searchsorted (a : List ℝ) (v : ℝ) : ℕ :=
  a.countP (fun y => decide (y < v))

/-- `pointing.get_ut1utc` (tod.py lines 164-183) after the table columns
`(umjds, ut1utcs)` have been loaded: `uindex = np.searchsorted(umjds, mjd)`
followed by `ut1utcs[uindex]`.  Indexing one past the end (numpy
`IndexError`) is modelled as `none`. -/
def get_ut1utc (umjds ut1utcs : List ℝ) (mjd : ℝ) : Option ℝ :=
  let uindex := searchsorted umjds mjd
  ut1utcs[uindex]?

/-- The external `pyslalib` astrometric primitives used by `Azel2Radec`,
abstracted over their (opaque to this repository) parameter-block types
`A` (mean-place block, `sla_mappa` output) and `O` (observation block,
`sla_aoppa`/`sla_aoppat` output). -/
structure Slalib (A O : Type) where
  sla_mappa : ℝ → ℝ → A
  sla_aoppat : ℝ → O → O
  sla_oapqk : Char → ℝ → ℝ → O → ℝ × ℝ
  sla_ampqk : ℝ → ℝ → A → ℝ × ℝ
  sla_dbear : ℝ → ℝ → ℝ → ℝ → ℝ

/-- The mutable state of an `Azel2Radec` instance (tod.py lines 304-334):
site constants, the reference equinox `epequi`, and the long-lived
observation-parameter block `aoprms` that is advanced in place. -/
structure Azel2Radec (O : Type) where
  lon : ℝ
  lat : ℝ
  height : ℝ
  pressure : ℝ
  temp : ℝ
  humidity : ℝ
  mjd : ℝ
  epequi : ℝ
  ut1utc : ℝ
  aoprms : O

/-- `Azel2Radec.azel2radecpa` (tod.py lines 336-352).  Python tuple
unpacking `ra, dec = f(...)` is rendered with `.1`/`.2` projections; the
in-place update `self.aoprms = sla_aoppat(...)` is rendered by returning the
updated state alongside the result. -/
def Azel2Radec.azel2radecpa {A O : Type} (s : Slalib A O) (self : Azel2Radec O)
    (mjd az el : ℝ) : (ℝ × ℝ × ℝ) × Azel2Radec O :=
  let zd := Real.pi / 2 - el
  let amprms := s.sla_mappa self.epequi mjd
  let aoprms := s.sla_aoppat mjd self.aoprms
  let app1 := s.sla_oapqk 'a' az (zd + 1e-8) aoprms
  let md1 := s.sla_ampqk app1.1 app1.2 amprms
  let app2 := s.sla_oapqk 'a' az (zd - 1e-8) aoprms
  let md2 := s.sla_ampqk app2.1 app2.2 amprms
  let pa := s.sla_dbear md1.1 md1.2 md2.1 md2.2
  let ra := 0.5 * (md1.1 + md2.1)
  let dec := 0.5 * (md1.2 + md2.2)
  ((ra, dec, pa), { self with aoprms := aoprms })

/-- Spec-side forward conversion, transcribed from the specification text
(spec.md §4.3, forward conversion): zenith distance from elevation; fresh
mean-place block from the query epoch; observation block advanced to the
query epoch; observed-to-apparent then apparent-to-mean reductions evaluated
at `zd + 1e-8` and `zd - 1e-8`; ra/dec the midpoint (average) of the two
evaluations; parallactic angle the bearing between the two perturbed
(ra, dec) pairs. -/
def azel2radecpaSpec {A O : Type} (s : Slalib A O) (self : Azel2Radec O)
    (mjd az el : ℝ) : (ℝ × ℝ × ℝ) × Azel2Radec O :=
  let zd := Real.pi / 2 - el
  let amprms := s.sla_mappa self.epequi mjd
  let advanced := s.sla_aoppat mjd self.aoprms
  let appPlus := s.sla_oapqk 'a' az (zd + 1e-8) advanced
  let meanPlus := s.sla_ampqk appPlus.1 appPlus.2 amprms
  let appMinus := s.sla_oapqk 'a' az (zd - 1e-8) advanced
  let meanMinus := s.sla_ampqk appMinus.1 appMinus.2 amprms
  let ra := (meanPlus.1 + meanMinus.1) / 2
  let dec := (meanPlus.2 + meanMinus.2) / 2
  let pa := s.sla_dbear meanPlus.1 meanPlus.2 meanMinus.1 meanMinus.2
  ((ra, dec, pa), { self with aoprms := advanced })

/-- `HealpixFitsMap` state after `load_healpix_fits_map` (input_sky.py):
`I` always loaded; `Q`, `U` loaded only when `do_pol` is set, otherwise they
stay `None`. -/
structure HealpixFitsMap where
  do_pol : Bool
  no_ileak : Bool
  no_quleak : Bool
  I : List ℝ
  Q : Option (List ℝ)
  U : Option (List ℝ)

/-- `HealpixFitsMap.set_leakage_to_zero` (input_sky.py lines 78-105):
`I[:] = 0.0` when `no_ileak`; `Q[:] = 0.0` and `U[:] = 0.0` when `no_quleak`
and the arrays are not `None`.  In-place zeroing of a numpy array keeps its
shape, hence `List.map (fun _ => 0)`. -/
def set_leakage_to_zero (m : HealpixFitsMap) : HealpixFitsMap :=
  let m := if m.no_ileak then { m with I := m.I.map (fun _ => (0 : ℝ)) } else m
  if m.no_quleak then
    { m with Q := m.Q.map (fun q => q.map (fun _ => (0 : ℝ))),
             U := m.U.map (fun u => u.map (fun _ => (0 : ℝ))) }
  else m

/-- `HealpixFitsMap.__init__` restricted to the in-memory part: take the
collaborator sky-store arrays (`hp.read_map` fields 0, 1, 2), keep `Q`/`U`
only when `do_pol`, then run `set_leakage_to_zero`. -/
def mkHealpixFitsMap (do_pol no_ileak no_quleak : Bool)
    (skyI skyQ skyU : List ℝ) : HealpixFitsMap :=
  set_leakage_to_zero
    { do_pol := do_pol, no_ileak := no_ileak, no_quleak := no_quleak,
      I := skyI,
      Q := if do_pol then some skyQ else none,
      U := if do_pol then some skyU else none }

/-! ### Helper lemmas -/

theorem srcAzd_eq_azdSpec (an aw an2 aw2 an4 aw4 npae ca ia dt lat az el : ℝ) :
    srcAzd an aw an2 aw2 an4 aw4 npae ca ia dt lat az el =
      azdSpec an aw an2 aw2 an4 aw4 npae ca ia dt lat az el := by
  simp only [srcAzd, azdSpec]
  ring

theorem srcEld_eq_eldSpec
    (an aw an2 aw2 an4 aw4 ie tf tfs rf dt elt lat az el t tmin : ℝ) :
    srcEld an aw an2 aw2 an4 aw4 ie tf tfs rf dt elt lat az el t tmin =
      eldSpec an aw an2 aw2 an4 aw4 ie tf tfs rf dt elt lat az el t tmin := by
  simp only [srcEld, eldSpec]
  ring

theorem length_map3 {α β γ δ : Type} (f : α → β → γ → δ) :
    ∀ (as : List α) (bs : List β) (cs : List γ),
      (map3 f as bs cs).length = min as.length (min bs.length cs.length)
  | [], [], [] => by simp [map3]
  | [], [], _ :: _ => by simp [map3]
  | [], _ :: _, _ => by simp [map3]
  | _ :: _, [], _ => by simp [map3]
  | _ :: _, _ :: _, [] => by simp [map3]
  | a :: as, b :: bs, c :: cs => by
    simp [map3, length_map3 f as bs cs]
    omega

theorem zipWith_fst_proj {α β : Type} :
    ∀ (as : List α) (bs : List β), as.length ≤ bs.length →
      List.zipWith (fun a _ => a) as bs = as
  | [], _, _ => rfl
  | _ :: _, [], h => by simp at h
  | a :: as, b :: bs, h => by
    simp only [List.zipWith_cons_cons, List.cons.injEq, true_and]
    exact zipWith_fst_proj as bs (by simpa using h)

theorem map3_snd_proj {α β γ : Type} :
    ∀ (as : List α) (bs : List β) (cs : List γ),
      bs.length ≤ as.length → bs.length ≤ cs.length →
      map3 (fun _ b _ => b) as bs cs = bs
  | as, [], cs, _, _ => by cases as <;> cases cs <;> simp [map3]
  | [], _ :: _, _, h, _ => by simp at h
  | _ :: _, _ :: _, [], _, h => by simp at h
  | a :: as, b :: bs, c :: cs, h1, h2 => by
    simp only [map3, List.cons.injEq, true_and]
    exact map3_snd_proj as bs cs (by simpa using h1) (by simpa using h2)

theorem indexOf?_some_spec {l : List String} {a : String} {i : ℕ}
    (h : List.indexOf? a l = some i) :
    ∃ hi : i < l.length, l.get ⟨i, hi⟩ = a := by
  induction l generalizing i with
  | nil => simp [List.indexOf?_nil] at h
  | cons x xs ih =>
    rw [List.indexOf?_cons] at h
    by_cases hx : x = a
    · simp only [hx, beq_self_eq_true, if_pos, Option.some.injEq] at h
      exact ⟨by simp [← h], by simp [← h, hx]⟩
    · have hb : (x == a) = false := beq_eq_false_iff_ne.mpr hx
      rw [hb] at h
      simp only [Bool.false_eq_true, if_false, Option.map_eq_some'] at h
      obtain ⟨j, hj, hij⟩ := h
      obtain ⟨hjl, hget⟩ := ih hj
      refine ⟨by simp [← hij]; omega, ?_⟩
      simp only [← hij]
      simpa using hget

theorem getParam_congr {allowed : List String} {v1 v2 : List ℝ} {p : String}
    (h : ∀ i, (hi : i < allowed.length) → allowed.get ⟨i, hi⟩ = p →
      v1.getD i 0 = v2.getD i 0) :
    getParam allowed v1 p = getParam allowed v2 p := by
  unfold getParam
  cases hidx : List.indexOf? p allowed with
  | none => rfl
  | some i =>
    obtain ⟨hi, hget⟩ := indexOf?_some_spec hidx
    exact h i hi hget

theorem getD_zero {l : List ℝ} (h : ∀ v ∈ l, v = 0) (i : ℕ) :
    l.getD i 0 = 0 := by
  rcases lt_or_ge i l.length with hi | hi
  · rw [List.getD_eq_getElem l 0 hi]
    exact h _ (List.getElem_mem hi)
  · exact List.getD_eq_default l 0 hi

theorem getParam_zero {allowed : List String} {v : List ℝ}
    (h : ∀ x ∈ v, x = 0) (p : String) : getParam allowed v p = 0 := by
  unfold getParam
  cases List.indexOf? p allowed with
  | none => rfl
  | some i => exact getD_zero h i

theorem searchsorted_eq (x : ℝ) :
    ∀ (l : List ℝ) (i : ℕ), i ≤ l.length →
      (∀ j, j < i → l.getD j 0 < x) →
      (∀ j, i ≤ j → j < l.length → ¬ l.getD j 0 < x) →
      searchsorted l x = i
  | [], i, hle, _, _ => by
    simpa [searchsorted] using (Nat.le_zero.mp hle).symm
  | a :: l, 0, _, _, hhigh => by
    have ha : ¬ a < x := by simpa using hhigh 0 (le_refl 0) (by simp)
    have hl : searchsorted l x = 0 :=
      searchsorted_eq x l 0 (Nat.zero_le _) (by omega)
        (fun j _ hj => by simpa using hhigh (j + 1) (by omega) (by simpa))
    simpa [searchsorted, List.countP_cons, ha] using hl
  | a :: l, k + 1, hle, hlow, hhigh => by
    have ha : a < x := by simpa using hlow 0 (by omega)
    have hl : searchsorted l x = k :=
      searchsorted_eq x l k (by simpa using hle)
        (fun j hj => by simpa using hlow (j + 1) (by omega))
        (fun j hj hj' => by simpa using hhigh (j + 1) (by omega) (by simpa))
    simp [searchsorted, List.countP_cons, ha] at hl ⊢
    omega

theorem azFun_eq (an aw an2 aw2 an4 aw4 npae ca ia dtv lat : ℝ) :
    (fun az el => az -
        srcAzd an aw an2 aw2 an4 aw4 npae ca ia (dtv * sec2deg) lat az el
          * (Real.pi / (180.0 * 60.0)) / Real.cos el) =
      fun az el => az -
        azdSpec an aw an2 aw2 an4 aw4 npae ca ia (dtv * (360 / 86400)) lat az el
          * (Real.pi / (180 * 60)) / Real.cos el := by
  funext az el
  rw [srcAzd_eq_azdSpec]
  norm_num [sec2deg]

theorem elFun_eq (an aw an2 aw2 an4 aw4 ie tf tfs rf dtv elt lat tmin : ℝ) :
    (fun az el t => el -
        srcEld an aw an2 aw2 an4 aw4 ie tf tfs rf (dtv * sec2deg) elt lat az el
            t tmin
          * (Real.pi / (180.0 * 60.0))) =
      fun az el t => el -
        eldSpec an aw an2 aw2 an4 aw4 ie tf tfs rf (dtv * (360 / 86400)) elt lat
            az el t tmin
          * (Real.pi / (180 * 60)) := by
  funext az el t
  rw [srcEld_eq_eldSpec]
  norm_num [sec2deg]

/-! ### Claim theorems -/

/-- C1: for every valid input, `apply_pointing_model` computes the azimuth and
elevation offsets in arcminutes exactly by the spec formulas (`azdSpec`,
`eldSpec`, with `dt` pre-multiplied by `360/86400`), converts both to radians
via `π/(180·60)`, additionally divides the azimuth offset by `cos(el_enc)`,
and returns `az_enc − azd` and `el_enc − eld`, arrays of the same shape as the
input. -/
theorem apply_pointing_model_spec_formula
    (az_enc el_enc time value_params : List ℝ) (allowed_params : List String)
    (lat : ℝ)
    (hlen : value_params.length = allowed_params.length)
    (h1 : el_enc.length = az_enc.length) (h2 : time.length = az_enc.length) :
    apply_pointing_model az_enc el_enc time value_params allowed_params lat =
      Except.ok
        (azCorrectedSpec (getParam allowed_params value_params "an")
          (getParam allowed_params value_params "aw")
          (getParam allowed_params value_params "an2")
          (getParam allowed_params value_params "aw2")
          (getParam allowed_params value_params "an4")
          (getParam allowed_params value_params "aw4")
          (getParam allowed_params value_params "npae")
          (getParam allowed_params value_params "ca")
          (getParam allowed_params value_params "ia")
          (getParam allowed_params value_params "dt" * (360 / 86400)) lat
          az_enc el_enc,
         elCorrectedSpec (getParam allowed_params value_params "an")
          (getParam allowed_params value_params "aw")
          (getParam allowed_params value_params "an2")
          (getParam allowed_params value_params "aw2")
          (getParam allowed_params value_params "an4")
          (getParam allowed_params value_params "aw4")
          (getParam allowed_params value_params "ie")
          (getParam allowed_params value_params "tf")
          (getParam allowed_params value_params "tfs")
          (getParam allowed_params value_params "ref")
          (getParam allowed_params value_params "dt" * (360 / 86400))
          (getParam allowed_params value_params "elt") lat
          az_enc el_enc time ((time.min?).getD 0)) ∧
    (azCorrectedSpec (getParam allowed_params value_params "an")
        (getParam allowed_params value_params "aw")
        (getParam allowed_params value_params "an2")
        (getParam allowed_params value_params "aw2")
        (getParam allowed_params value_params "an4")
        (getParam allowed_params value_params "aw4")
        (getParam allowed_params value_params "npae")
        (getParam allowed_params value_params "ca")
        (getParam allowed_params value_params "ia")
        (getParam allowed_params value_params "dt" * (360 / 86400)) lat
        az_enc el_enc).length = az_enc.length ∧
    (elCorrectedSpec (getParam allowed_params value_params "an")
        (getParam allowed_params value_params "aw")
        (getParam allowed_params value_params "an2")
        (getParam allowed_params value_params "aw2")
        (getParam allowed_params value_params "an4")
        (getParam allowed_params value_params "aw4")
        (getParam allowed_params value_params "ie")
        (getParam allowed_params value_params "tf")
        (getParam allowed_params value_params "tfs")
        (getParam allowed_params value_params "ref")
        (getParam allowed_params value_params "dt" * (360 / 86400))
        (getParam allowed_params value_params "elt") lat
        az_enc el_enc time ((time.min?).getD 0)).length = az_enc.length := by
  refine ⟨?_, ?_, ?_⟩
  · unfold apply_pointing_model azCorrectedSpec elCorrectedSpec
    rw [if_neg (not_ne_iff.mpr hlen)]
    dsimp only
    rw [azFun_eq, elFun_eq]
  · unfold azCorrectedSpec
    rw [List.length_zipWith]
    omega
  · unfold elCorrectedSpec
    rw [length_map3]
    omega

/-- C1 witness: concrete one-sample run with empty parameter lists. -/
theorem apply_pointing_model_spec_formula_witness :
    apply_pointing_model [0.3] [1] [2] [] [] 0 =
      Except.ok
        (azCorrectedSpec 0 0 0 0 0 0 0 0 0 (0 * (360 / 86400)) 0 [0.3] [1],
         elCorrectedSpec 0 0 0 0 0 0 0 0 0 0 (0 * (360 / 86400)) 0 0
           [0.3] [1] [2] 2) ∧
    (azCorrectedSpec 0 0 0 0 0 0 0 0 0 (0 * (360 / 86400)) 0
      [0.3] [1]).length = 1 ∧
    (elCorrectedSpec 0 0 0 0 0 0 0 0 0 0 (0 * (360 / 86400)) 0 0
      [0.3] [1] [2] 2).length = 1 :=
  apply_pointing_model_spec_formula [0.3] [1] [2] [] [] 0 rfl rfl rfl

/-- C2: with all supplied pointing-model parameter values zero and every
elevation entry avoiding `0` and `π/2`, `apply_pointing_model` is the
identity on the encoder azimuth and elevation arrays. -/
theorem apply_pointing_model_zero_identity
    (az_enc el_enc time value_params : List ℝ) (allowed_params : List String)
    (lat : ℝ)
    (hlen : value_params.length = allowed_params.length)
    (hzero : ∀ v ∈ value_params, v = 0)
    (_hel : ∀ e ∈ el_enc, e ≠ 0 ∧ e ≠ Real.pi / 2)
    (h1 : el_enc.length = az_enc.length) (h2 : time.length = az_enc.length) :
    apply_pointing_model az_enc el_enc time value_params allowed_params lat =
      Except.ok (az_enc, el_enc) := by
  unfold apply_pointing_model
  rw [if_neg (not_ne_iff.mpr hlen)]
  dsimp only
  simp only [getParam_zero hzero]
  have haz : (fun az el => az -
      srcAzd 0 0 0 0 0 0 0 0 0 (0 * sec2deg) lat az el
        * (Real.pi / (180.0 * 60.0)) / Real.cos el) = fun az (_ : ℝ) => az := by
    funext az el
    simp [srcAzd]
  have helf : (fun az el t => el -
      srcEld 0 0 0 0 0 0 0 0 0 0 (0 * sec2deg) 0 lat az el t
          ((time.min?).getD 0)
        * (Real.pi / (180.0 * 60.0))) = fun (_ el _ : ℝ) => el := by
    funext az el t
    simp [srcEld]
  rw [haz, helf]
  rw [zipWith_fst_proj az_enc el_enc (le_of_eq h1.symm),
    map3_snd_proj az_enc el_enc time (le_of_eq h1) (le_of_eq (h1.trans h2.symm))]

/-- C2 witness: a five-term all-zero parameter vector acts as the identity on
a concrete sample. -/
theorem apply_pointing_model_zero_identity_witness :
    apply_pointing_model [0.3] [1] [2] [0, 0, 0, 0, 0]
        ["ia", "ie", "ca", "an", "aw"] 0.5 = Except.ok ([0.3], [1]) := by
  apply apply_pointing_model_zero_identity
  · rfl
  · intro v hv
    simpa using hv
  · intro e he
    have he' : e = 1 := by simpa using he
    subst he'
    refine ⟨by norm_num, fun h => ?_⟩
    have hpi := Real.pi_gt_three
    have : Real.pi = 2 := by linarith [h]
    linarith
  · rfl
  · rfl

/-- C3: a parameter-name/value length mismatch makes `apply_pointing_model`
fail with the fatal input error, producing no corrected output. -/
theorem apply_pointing_model_length_mismatch
    (az_enc el_enc time value_params : List ℝ) (allowed_params : List String)
    (lat : ℝ) (hlen : value_params.length ≠ allowed_params.length) :
    apply_pointing_model az_enc el_enc time value_params allowed_params lat =
      Except.error ("Vector containing parameters (value_params) has to have " ++
        "the same length than the vector containing names (allowed_params).") ∧
    (apply_pointing_model az_enc el_enc time value_params allowed_params
      lat).isOk = false := by
  unfold apply_pointing_model
  rw [if_pos hlen]
  exact ⟨rfl, rfl⟩

/-- C3 witness: zero values supplied against one name. -/
theorem apply_pointing_model_length_mismatch_witness :
    apply_pointing_model [1] [1] [1] [] ["ia"] 0 =
      Except.error ("Vector containing parameters (value_params) has to have " ++
        "the same length than the vector containing names (allowed_params).") ∧
    (apply_pointing_model [1] [1] [1] [] ["ia"] 0).isOk = false :=
  apply_pointing_model_length_mismatch [1] [1] [1] [] ["ia"] 0 (by decide)

/-- C4: on a table sorted ascending by mjd, `get_ut1utc` returns exactly the
correction of the first entry whose mjd is greater than or equal to the
query, with no interpolation. -/
theorem get_ut1utc_first_ge (umjds ut1utcs : List ℝ) (mjd : ℝ) (i : ℕ)
    (hsort : umjds.Sorted (· ≤ ·)) (_hlen : ut1utcs.length = umjds.length)
    (hi : i < umjds.length) (hi' : i < ut1utcs.length)
    (hge : mjd ≤ umjds.get ⟨i, hi⟩)
    (hfirst : ∀ j, (hj : j < umjds.length) → j < i → umjds.get ⟨j, hj⟩ < mjd) :
    get_ut1utc umjds ut1utcs mjd = some (ut1utcs.get ⟨i, hi'⟩) := by
  have hss : searchsorted umjds mjd = i := by
    apply searchsorted_eq mjd umjds i (le_of_lt hi)
    · intro j hj
      have hjl : j < umjds.length := lt_trans hj hi
      rw [List.getD_eq_getElem umjds 0 hjl]
      exact hfirst j hjl hj
    · intro j hij hjl
      rw [List.getD_eq_getElem umjds 0 hjl]
      rcases eq_or_lt_of_le hij with h | h
      · subst h
        exact not_lt.mpr hge
      · refine not_lt.mpr (le_trans hge ?_)
        have := List.pairwise_iff_get.mp hsort ⟨i, hi⟩ ⟨j, hjl⟩ h
        simpa using this
  unfold get_ut1utc
  rw [hss, List.getElem?_eq_getElem hi']
  simp

/-- C4 witness: the middle entry is the first one at or above the query. -/
theorem get_ut1utc_first_ge_witness :
    get_ut1utc [1, 2, 3] [10, 20, 30] 1.5 = some 20 := by
  have h := get_ut1utc_first_ge [1, 2, 3] [10, 20, 30] 1.5 1
    (by simp [List.sorted_cons]; norm_num) rfl (by norm_num) (by norm_num)
    (by norm_num) ?_
  · simpa using h
  · intro j hj hj1
    interval_cases j
    · norm_num [List.get]

/-- C9: for a query strictly above every table mjd, the insertion-point
search yields the index one past the end, and the lookup fails (out-of-range
indexing, modelled as `none`). -/
theorem get_ut1utc_past_end (umjds ut1utcs : List ℝ) (mjd : ℝ)
    (_hne : umjds ≠ []) (_hsort : umjds.Sorted (· ≤ ·))
    (hlen : ut1utcs.length = umjds.length)
    (hmax : ∀ y ∈ umjds, y < mjd) :
    searchsorted umjds mjd = umjds.length ∧
      get_ut1utc umjds ut1utcs mjd = none := by
  have h1 : searchsorted umjds mjd = umjds.length :=
    List.countP_eq_length.mpr (fun a ha => by simpa using hmax a ha)
  refine ⟨h1, ?_⟩
  unfold get_ut1utc
  rw [h1]
  exact List.getElem?_eq_none (le_of_eq hlen)

/-- C9 witness: a query past the end of a two-entry table. -/
theorem get_ut1utc_past_end_witness :
    searchsorted [1, 2] 5 = 2 ∧ get_ut1utc [1, 2] [10, 20] 5 = none := by
  have h := get_ut1utc_past_end [1, 2] [10, 20] 5 (by simp)
    (by norm_num [List.sorted_cons]) rfl ?_
  · simpa using h
  · intro y hy
    rcases List.mem_cons.mp hy with h | h
    · rw [h]; norm_num
    · have : y = 2 := by simpa using h
      rw [this]; norm_num

/-- C5: `azel2radecpa` proceeds exactly as the spec describes — zenith
distance `π/2 − el`, a fresh mean-place block from the query epoch, the
shared observation block advanced in place, the observed-to-apparent and
apparent-to-mean reductions evaluated at `zd ± 1e-8`, ra/dec the midpoint of
the two evaluations, and the parallactic angle the bearing between the two
perturbed (ra, dec) pairs — for every implementation of the slalib
primitives. -/
theorem azel2radecpa_spec {A O : Type} (s : Slalib A O) (self : Azel2Radec O)
    (mjd az el : ℝ) :
    Azel2Radec.azel2radecpa s self mjd az el =
      azel2radecpaSpec s self mjd az el := by
  unfold Azel2Radec.azel2radecpa azel2radecpaSpec
  dsimp only
  have half_mul : ∀ x : ℝ, 0.5 * x = x / 2 := fun x => by norm_num; ring
  rw [half_mul, half_mul]

/-- C7: the ten declared-but-unimplemented catalog terms are accepted and
have zero effect — two value assignments differing only at positions whose
names lie in `ghostParams` produce identical corrected az/el arrays, and the
call succeeds. -/
theorem ghost_params_no_effect
    (az_enc el_enc time v1 v2 : List ℝ) (allowed_params : List String)
    (lat : ℝ)
    (hlen1 : v1.length = allowed_params.length)
    (hlen2 : v2.length = allowed_params.length)
    (hagree : ∀ i, (hi : i < allowed_params.length) →
      allowed_params.get ⟨i, hi⟩ ∉ ghostParams → v1.getD i 0 = v2.getD i 0) :
    apply_pointing_model az_enc el_enc time v1 allowed_params lat =
      apply_pointing_model az_enc el_enc time v2 allowed_params lat ∧
    (apply_pointing_model az_enc el_enc time v1 allowed_params lat).isOk =
      true := by
  have key : ∀ u : String, u ∉ ghostParams →
      getParam allowed_params v1 u = getParam allowed_params v2 u := by
    intro u hu
    apply getParam_congr
    intro i hi hget
    exact hagree i hi (by rw [hget]; exact hu)
  constructor
  · unfold apply_pointing_model
    rw [if_neg (not_ne_iff.mpr hlen1), if_neg (not_ne_iff.mpr hlen2)]
    dsimp only
    simp only [key "an" (by decide), key "aw" (by decide),
      key "an2" (by decide), key "aw2" (by decide), key "an4" (by decide),
      key "aw4" (by decide), key "npae" (by decide), key "ca" (by decide),
      key "ia" (by decide), key "ie" (by decide), key "tf" (by decide),
      key "tfs" (by decide), key "ref" (by decide), key "dt" (by decide),
      key "elt" (by decide)]
  · unfold apply_pointing_model
    rw [if_neg (not_ne_iff.mpr hlen1)]
    rfl

/-- C7 witness: changing only the value bound to the ghost name `sa` leaves
the output unchanged. -/
theorem ghost_params_no_effect_witness :
    apply_pointing_model [0.3] [1] [2] [1, 5] ["ia", "sa"] 0 =
      apply_pointing_model [0.3] [1] [2] [1, 7] ["ia", "sa"] 0 ∧
    (apply_pointing_model [0.3] [1] [2] [1, 5] ["ia", "sa"] 0).isOk =
      true := by
  apply ghost_params_no_effect
  · rfl
  · rfl
  · intro i hi hmem
    rcases i with _ | _ | n
    · rfl
    · exact absurd
        (show ["ia", "sa"].get ⟨1, by norm_num⟩ ∈ ghostParams from by decide)
        hmem
    · rfl

/-- C10: a name outside the 25-term catalog is silently accepted — no error
is raised, its paired value is never read, and the output is independent of
that value; only the length of the name list is checked. -/
theorem unknown_param_name_ignored
    (az_enc el_enc time v1 v2 : List ℝ) (allowed_params : List String)
    (lat : ℝ) (j : ℕ)
    (hlen1 : v1.length = allowed_params.length)
    (hlen2 : v2.length = allowed_params.length)
    (hj : j < allowed_params.length)
    (hname : allowed_params.get ⟨j, hj⟩ ∉ paramCatalog)
    (hagree : ∀ i, i ≠ j → v1.getD i 0 = v2.getD i 0) :
    apply_pointing_model az_enc el_enc time v1 allowed_params lat =
      apply_pointing_model az_enc el_enc time v2 allowed_params lat ∧
    (apply_pointing_model az_enc el_enc time v1 allowed_params lat).isOk =
      true := by
  have key : ∀ u ∈ paramCatalog,
      getParam allowed_params v1 u = getParam allowed_params v2 u := by
    intro u hu
    apply getParam_congr
    intro i hi hget
    by_cases hij : i = j
    · subst hij
      rw [hget] at hname
      exact absurd hu hname
    · exact hagree i hij
  constructor
  · unfold apply_pointing_model
    rw [if_neg (not_ne_iff.mpr hlen1), if_neg (not_ne_iff.mpr hlen2)]
    dsimp only
    simp only [key "an" (by decide), key "aw" (by decide),
      key "an2" (by decide), key "aw2" (by decide), key "an4" (by decide),
      key "aw4" (by decide), key "npae" (by decide), key "ca" (by decide),
      key "ia" (by decide), key "ie" (by decide), key "tf" (by decide),
      key "tfs" (by decide), key "ref" (by decide), key "dt" (by decide),
      key "elt" (by decide)]
  · unfold apply_pointing_model
    rw [if_neg (not_ne_iff.mpr hlen1)]
    rfl

/-- C10 witness: the value bound to the unrecognized name `foo` is never
read. -/
theorem unknown_param_name_ignored_witness :
    apply_pointing_model [0.3] [1] [2] [1, 5] ["ia", "foo"] 0 =
      apply_pointing_model [0.3] [1] [2] [1, 7] ["ia", "foo"] 0 ∧
    (apply_pointing_model [0.3] [1] [2] [1, 5] ["ia", "foo"] 0).isOk =
      true := by
  refine unknown_param_name_ignored [0.3] [1] [2] [1, 5] [1, 7] ["ia", "foo"]
    0 1 rfl rfl (by decide) (by decide) ?_
  intro i hij
  rcases i with _ | _ | n
  · rfl
  · exact absurd rfl hij
  · rfl

/-- All entries of a map are zero. -/
def allZero (l : List ℝ) : Prop := ∀ x ∈ l, x = 0

/-- All entries of an optional map are zero (vacuous for `None`). -/
def optAllZero (o : Option (List ℝ)) : Prop := ∀ l, o = some l → allZero l

/-- C8: after construction, `no_ileak` forces the I array to all zeros
regardless of the input map, and `no_quleak` forces the Q and U arrays to all
zeros. -/
theorem set_leakage_to_zero_spec (do_pol no_ileak no_quleak : Bool)
    (skyI skyQ skyU : List ℝ) :
    (no_ileak = true →
      allZero (mkHealpixFitsMap do_pol no_ileak no_quleak skyI skyQ skyU).I) ∧
    (no_quleak = true →
      optAllZero (mkHealpixFitsMap do_pol no_ileak no_quleak skyI skyQ skyU).Q ∧
      optAllZero
        (mkHealpixFitsMap do_pol no_ileak no_quleak skyI skyQ skyU).U) := by
  cases no_ileak <;> cases no_quleak <;> cases do_pol <;>
    simp [mkHealpixFitsMap, set_leakage_to_zero, allZero, optAllZero]

/-- C8 witness: a polarized map with both leakage flags set comes out all
zero. -/
theorem set_leakage_to_zero_spec_witness :
    allZero (mkHealpixFitsMap true true true [1, 2] [3] [4]).I ∧
    optAllZero (mkHealpixFitsMap true true true [1, 2] [3] [4]).Q ∧
    optAllZero (mkHealpixFitsMap true true true [1, 2] [3] [4]).U := by
  obtain ⟨h1, h2⟩ := set_leakage_to_zero_spec true true true [1, 2] [3] [4]
  exact ⟨h1 rfl, (h2 rfl).1, (h2 rfl).2⟩

end
